import Mathlib

/-!
Verification development for the silo11writerdeck repository.

Shallow embedding of:
- src/tui/actions.py        (last-used app state, display rotation config parsing)
- src/tui/theme.py          (theme presets, resolution, persistence)
- src/unauthorized_zone/custom_bluetooth/bt_autopair_trust_connect_agent.py
- src/unauthorized_zone/custom_http_server/export_http_server.py

Conventions of the embedding:
- Python strings are Lean `String`; character-level operations work on `String.data`
  (ASCII scope: the repository only manipulates ASCII configuration values, paths
  and command names).
- The filesystem is an explicit finite map; "the file is missing or unreadable"
  is `Option.none` for one-file state, or an `openable := false` flag for the
  HTTP server's files (whose code catches `OSError` from `open`).
- Python functions whose body is wrapped in `try/except` are modelled as
  functions returning `Except String _`, with the catch translated explicitly.
-/

namespace Silo

/-! ## Python string primitives -/

/-- Whitespace characters stripped by Python `str.strip()` (ASCII scope). -/
def isPySpace (c : Char) : Bool :=
  c = ' ' || c = '\t' || c = '\n' || c = '\r' || c = '\x0b' || c = '\x0c'

/-- Python `str.strip()` on a character list: remove leading and trailing
whitespace. -/
def stripChars (l : List Char) : List Char :=
  (l.dropWhile isPySpace).rdropWhile isPySpace

/-- Python `str.strip()`. -/
def pyStrip (s : String) : String :=
  String.mk (stripChars s.data)

/-- Python `str.lower()` (ASCII scope). -/
def pyLower (s : String) : String :=
  String.mk (s.data.map Char.toLower)

theorem dropWhile_idem (p : Char → Bool) (l : List Char) :
    (l.dropWhile p).dropWhile p = l.dropWhile p := by
  induction l with
  | nil => rfl
  | cons a t ih =>
    by_cases h : p a
    · simp [List.dropWhile, h, ih]
    · simp [List.dropWhile, h]

theorem dropWhile_append_of_ne_nil (p : Char → Bool) (l m : List Char)
    (h : l.dropWhile p ≠ []) :
    (l ++ m).dropWhile p = l.dropWhile p ++ m := by
  induction l with
  | nil => simp [List.dropWhile] at h
  | cons a t ih =>
    by_cases hp : p a
    · have ht : t.dropWhile p ≠ [] := by simpa [List.dropWhile, hp] using h
      simp [List.dropWhile, hp, ih ht]
    · simp [List.dropWhile, hp]

theorem dropWhile_append_of_nil (p : Char → Bool) (l m : List Char)
    (h : l.dropWhile p = []) :
    (l ++ m).dropWhile p = m.dropWhile p := by
  induction l with
  | nil => rfl
  | cons a t ih =>
    have hpa : p a := by
      by_contra hpa
      simp [List.dropWhile, hpa] at h
    have ht : t.dropWhile p = [] := by simpa [List.dropWhile, hpa] using h
    simpa [List.dropWhile, hpa] using ih ht

theorem rdropWhile_idem (p : Char → Bool) (l : List Char) :
    (l.rdropWhile p).rdropWhile p = l.rdropWhile p := by
  simp [List.rdropWhile, dropWhile_idem]

theorem dropWhile_rdropWhile_comm (p : Char → Bool) (l : List Char) :
    (l.rdropWhile p).dropWhile p = (l.dropWhile p).rdropWhile p := by
  induction l using List.reverseRecOn with
  | nil => rfl
  | append_singleton t x ih =>
    by_cases hx : p x
    · by_cases ht : t.dropWhile p = []
      · rw [List.rdropWhile_concat_pos p t x hx, ih, ht,
          dropWhile_append_of_nil p t [x] ht]
        simp [List.dropWhile, hx]
      · rw [List.rdropWhile_concat_pos p t x hx, ih,
          dropWhile_append_of_ne_nil p t [x] ht,
          List.rdropWhile_concat_pos p (t.dropWhile p) x hx]
    · by_cases ht : t.dropWhile p = []
      · rw [List.rdropWhile_concat_neg p t x hx,
          dropWhile_append_of_nil p t [x] ht]
        simp [List.dropWhile, hx, List.rdropWhile_singleton]
      · rw [List.rdropWhile_concat_neg p t x hx,
          dropWhile_append_of_ne_nil p t [x] ht,
          List.rdropWhile_concat_neg p (t.dropWhile p) x hx]

theorem stripChars_no_lead (l : List Char) :
    (stripChars l).dropWhile isPySpace = stripChars l := by
  show ((l.dropWhile isPySpace).rdropWhile isPySpace).dropWhile isPySpace = stripChars l
  rw [dropWhile_rdropWhile_comm, dropWhile_idem]
  rfl

theorem stripChars_no_trail (l : List Char) :
    (stripChars l).rdropWhile isPySpace = stripChars l := by
  show ((l.dropWhile isPySpace).rdropWhile isPySpace).rdropWhile isPySpace = stripChars l
  rw [rdropWhile_idem]
  rfl

/-- Stripping the result of a strip followed by a single whitespace character
gives the original strip back; this is the round-trip core for the one-line
state files (which are written as `value.strip() + "\n"`). -/
theorem stripChars_append_space (l : List Char) (c : Char) (hc : isPySpace c) :
    stripChars (stripChars l ++ [c]) = stripChars l := by
  by_cases hm : stripChars l = []
  · rw [hm]
    show (([c].dropWhile isPySpace).rdropWhile isPySpace) = []
    simp [List.dropWhile, hc]
  · have hlead := stripChars_no_lead l
    have hne : (stripChars l).dropWhile isPySpace ≠ [] := by
      rw [hlead]; exact hm
    have hdw : (stripChars l ++ [c]).dropWhile isPySpace = stripChars l ++ [c] := by
      rw [dropWhile_append_of_ne_nil isPySpace _ [c] hne, hlead]
    show (((stripChars l ++ [c]).dropWhile isPySpace).rdropWhile isPySpace) = stripChars l
    rw [hdw, List.rdropWhile_concat_pos isPySpace _ c hc]
    exact stripChars_no_trail l

theorem pyStrip_append_newline (s : String) :
    pyStrip (pyStrip s ++ "\n") = pyStrip s := by
  have h : (pyStrip s ++ "\n").data = stripChars s.data ++ ['\n'] := by
    show (String.mk (stripChars s.data) ++ "\n").data = stripChars s.data ++ ['\n']
    simp [String.data_append]
  show String.mk (stripChars ((pyStrip s ++ "\n").data)) = String.mk (stripChars s.data)
  rw [h, stripChars_append_space s.data '\n' (by decide)]

/-! ## actions.py — last-used app state

`record_last_used` / `get_last_used` persist a single scalar in a one-line
state file.  The file is modelled as `Option String` (`none` = missing or
unreadable), and the possibility of a write failure as an explicit flag; the
surrounding `try/except` blocks of the source are translated as explicit
matches on an intermediate `Except`. -/

/-- Outcome of `Path.write_text`: either the file now holds `data`, or an
`OSError` was raised and the file is unchanged. -/
def tryWrite (file : Option String) (data : String) (writeFails : Bool) :
    Option String × Except String Unit :=
  if writeFails then (file, Except.error "OSError") else (some data, Except.ok ())

/-- Outcome of `Path.read_text`: the content, or `OSError` when the file is
missing or unreadable. -/
def tryRead (file : Option String) : Except String String :=
  match file with
  | none => Except.error "OSError"
  | some s => Except.ok s

/-- `record_last_used(app_id)`: writes `app_id.strip() + "\n"`, swallowing any
exception (`except Exception: pass`). Returns the new file state and the
(always normal) control-flow outcome. -/
def record_last_used (file : Option String) (app_id : String) (writeFails : Bool) :
    Option String × Except String Unit :=
  match tryWrite file (pyStrip app_id ++ "\n") writeFails with
  | (f, Except.error _) => (f, Except.ok ())
  | (f, Except.ok _) => (f, Except.ok ())

/-- `get_last_used()`: reads and strips the state file, returning `None` on
any exception and also when the stripped text is empty (`return text or None`).
The outer `Except` is the control-flow outcome (always normal). -/
def get_last_used (file : Option String) : Except String (Option String) :=
  match tryRead file with
  | Except.error _ => Except.ok none
  | Except.ok s =>
    let text := pyStrip s
    Except.ok (if text = "" then none else some text)

/-! ## actions.py — display rotation

`get_current_rotation` scans `/boot/firmware/config.txt` for the first line
matching the regular expression
`^\s*display_hdmi_rotate\s*=\s*([0-3])\s*(#.*)?$` and returns the captured
digit.  The config file is modelled as its list of lines as produced by
`str.splitlines()` (so lines contain no newline character, which is the
domain on which the matcher below agrees exactly with the regex). -/

/-- The config key `display_hdmi_rotate`. -/
def rotKey : List Char := "display_hdmi_rotate".data

/-- The value captured by the `([0-3])` group, when the character is one of
the four accepted digits. -/
def digitVal (c : Char) : Option Nat :=
  if c = '0' then some 0
  else if c = '1' then some 1
  else if c = '2' then some 2
  else if c = '3' then some 3
  else none

/-- Matcher for `^\s*display_hdmi_rotate\s*=\s*([0-3])\s*(#.*)?$` on one
(newline-free) line; returns the captured digit. -/
def lineRotation (line : String) : Option Nat :=
  let l := line.data.dropWhile isPySpace
  if rotKey.isPrefixOf l then
    match (l.drop rotKey.length).dropWhile isPySpace with
    | '=' :: r2 =>
      match r2.dropWhile isPySpace with
      | c :: r3 =>
        match digitVal c with
        | some v =>
          match r3.dropWhile isPySpace with
          | [] => some v
          | '#' :: _ => some v
          | _ => none
        | none => none
      | [] => none
    | _ => none
  else none

/-- `get_current_rotation()`: `None` when the config file does not exist,
otherwise the digit of the first matching line (`None` if no line matches). -/
def get_current_rotation (config : Option (List String)) : Option Nat :=
  match config with
  | none => none
  | some lines => lines.findSome? lineRotation

/-- The entry guard of `set_rotation(rot_val)`: the statement
`assert rot_val in (0,1,2,3)` raises `AssertionError` for any other value,
before any filesystem or subprocess activity. -/
def set_rotation_entry (rot_val : Int) : Except String Unit :=
  if rot_val = 0 ∨ rot_val = 1 ∨ rot_val = 2 ∨ rot_val = 3 then Except.ok ()
  else Except.error "AssertionError"

/-! ## theme.py — presets, resolution, persistence

The mutable module state is `_CURRENT_THEME` plus the persisted theme file;
both are carried in `ThemeState`.  The `WD_THEME` environment variable is
fixed for a process run. -/

/-- Keys of `THEME_PRESETS`. -/
def themeKeys : List String := ["day", "night", "toxic"]

/-- Theme module state: `_CURRENT_THEME` and the content of the XDG theme
file (`none` = missing or unreadable). -/
structure ThemeState where
  current : String
  themeFile : Option String
deriving DecidableEq, Repr

/-- `_read_persisted_theme()`: stripped lowercased file content, or `None`
when the file is missing/unreadable or the content strips to empty
(`return name or None`). -/
def read_persisted_theme (file : Option String) : Option String :=
  match file with
  | none => none
  | some s =>
    let name := pyLower (pyStrip s)
    if name = "" then none else some name

/-- `_resolve_theme_name()`: explicit env override, else valid persisted
name, else the default `"night"`. -/
def resolve_theme_name (env : Option String) (file : Option String) : String :=
  let envName := pyLower (pyStrip (env.getD ""))
  if envName ≠ "" ∧ envName ∈ themeKeys then envName
  else
    match read_persisted_theme file with
    | some p => if p ∈ themeKeys then p else "night"
    | none => "night"

/-- `get_theme()`. -/
def get_theme (st : ThemeState) : String := st.current

/-- `set_theme(name)`: normalise, and only when the name is a preset key
update `_CURRENT_THEME` and then try to persist it, ignoring filesystem
errors (`except Exception: pass`).  Returns the new state and the (always
normal) control-flow outcome; `persistFails` selects the failing branch of
the `try`. -/
def set_theme (st : ThemeState) (name : String) (persistFails : Bool) :
    ThemeState × Except String Unit :=
  let n := pyLower (pyStrip name)
  if n ∈ themeKeys then
    let st1 : ThemeState := { st with current := n }
    match tryWrite st1.themeFile (n ++ "\n") persistFails with
    | (f, Except.error _) => ({ st1 with themeFile := f }, Except.ok ())
    | (f, Except.ok _) => ({ st1 with themeFile := f }, Except.ok ())
  else (st, Except.ok ())

/-- States of the theme module reachable in a run: the import-time
initialisation `_CURRENT_THEME = _resolve_theme_name()` from any persisted
file, followed by any sequence of `set_theme` calls (each of which may fail
to persist). -/
inductive ThemeReachable (env : Option String) : ThemeState → Prop
  | init (file : Option String) :
      ThemeReachable env ⟨resolve_theme_name env file, file⟩
  | step (st : ThemeState) (name : String) (persistFails : Bool) :
      ThemeReachable env st →
      ThemeReachable env (set_theme st name persistFails).1

/-! ## bt_autopair_trust_connect_agent.py — Bluetooth agent

`RequestConfirmation` is modelled as the sequence of `bluetoothctl`
commands it actually executes, parametrised by an oracle `exec` giving the
exit code of each executed command (`run_bt` folds timeouts and spawn
errors into nonzero codes, so the oracle covers them). -/

/-- Characters allowed in the MAC part of a BlueZ device path
(`[0-9a-fA-F_]`). -/
def isHexUnd (c : Char) : Bool :=
  ('0' ≤ c && c ≤ '9') || ('a' ≤ c && c ≤ 'f') || ('A' ≤ c && c ≤ 'F') || c = '_'

/-- `re.search(r"dev_([0-9a-fA-F_]+)$", s)`: the leftmost position where
`dev_` is followed by a nonempty all-`[0-9a-fA-F_]` run reaching the end of
the string; returns the captured group. -/
def findDevSuffix : List Char → Option (List Char)
  | [] => none
  | c :: cs =>
    if ("dev_".data).isPrefixOf (c :: cs)
        && !((c :: cs).drop 4).isEmpty && ((c :: cs).drop 4).all isHexUnd then
      some ((c :: cs).drop 4)
    else findDevSuffix cs

/-- `_` to `:` then uppercase — `group(1).replace("_", ":").upper()`. -/
def macChar (c : Char) : Char := if c = '_' then ':' else c.toUpper

/-- `Agent.extract_mac(device_path)`. -/
def extract_mac (device_path : String) : Option String :=
  (findDevSuffix device_path.data).map (fun l => String.mk (l.map macChar))

/-- A `bluetoothctl` invocation. -/
def btcmd (args : List String) : List String := "bluetoothctl" :: args

/-- `Agent.RequestConfirmation`, as the ordered list of subprocess commands
it executes.  In dry-run mode it returns before executing anything; with an
unparseable MAC it logs an error and returns; otherwise it trusts, connects,
and — only when the connect exit code is 0 and `post_connect_knobs` is
enabled — turns discoverable/pairable/scan off. -/
def RequestConfirmation (dry_run knobs : Bool) (device : String)
    (exec : List String → Int) : List (List String) :=
  if dry_run then []
  else
    match extract_mac device with
    | none => []
    | some mac =>
      let connectCmd := btcmd ["connect", mac]
      let rc_c := exec connectCmd
      btcmd ["trust", mac] :: connectCmd ::
        (if rc_c = 0 && knobs then
          [btcmd ["discoverable", "off"], btcmd ["pairable", "off"],
            btcmd ["scan", "off"]]
        else [])

/-! ## export_http_server.py — paths and filesystem

POSIX path strings are resolved by `os.path.abspath` into canonical
component lists (`AbsPath`); the filesystem is a finite map from canonical
absolute paths to nodes.  A file node carries an `openable` flag because
`send_head` explicitly catches `OSError` from `open`; directories are
modelled as always listable (the repository code never handles a listing
failure itself). -/

/-- Canonical absolute path: components below the root, no `..`/`.`/empty
components. -/
abbrev AbsPath := List String

/-- A filesystem node: regular file (with openability and byte content) or
directory (with its entry names). -/
inductive Node where
  | file (openable : Bool) (content : List Nat)
  | dir (entries : List String)
deriving DecidableEq, Repr

/-- Finite-map filesystem from canonical absolute paths to nodes. -/
abbrev FS := List (AbsPath × Node)

/-- Look a path up in the filesystem. -/
def FS.lookup (fs : FS) (p : AbsPath) : Option Node :=
  (fs.find? (fun e => e.1 = p)).map Prod.snd

/-- `os.path.isfile`. -/
def FS.isfile (fs : FS) (p : AbsPath) : Bool :=
  match FS.lookup fs p with
  | some (Node.file _ _) => true
  | _ => false

/-- Split a POSIX path string on `/`. -/
def splitSlash (s : String) : List String :=
  (s.data.splitOn '/').map (fun l => String.mk l)

/-- One pass of `os.path.normpath` over components (absolute paths): empty
and `.` components vanish, `..` pops (and vanishes at the root). -/
def normAcc (acc : List String) : List String → List String
  | [] => acc.reverse
  | c :: rest =>
    if c = "" ∨ c = "." then normAcc acc rest
    else if c = ".." then normAcc acc.tail rest
    else normAcc (c :: acc) rest

/-- `startswith` on strings via character lists. -/
def strStartsWith (s pre : String) : Bool := pre.data.isPrefixOf s.data

/-- `endswith` on strings via character lists. -/
def strEndsWith (s suf : String) : Bool := suf.data.isSuffixOf s.data

/-- `os.path.join(a, b)` for POSIX, two arguments. -/
def pyJoin (a b : String) : String :=
  if strStartsWith b "/" then b
  else if a = "" ∨ strEndsWith a "/" then a ++ b
  else a ++ "/" ++ b

/-- `os.path.abspath(p)` relative to the working directory `cwd` (itself an
absolute path string): join then normalise into canonical components. -/
def abspath (cwd p : String) : AbsPath :=
  normAcc [] (splitSlash (pyJoin cwd p))

/-- Value of a hex digit, as used by percent-decoding. -/
def hexVal (c : Char) : Option Nat :=
  if '0' ≤ c && c ≤ '9' then some (c.toNat - 48)
  else if 'a' ≤ c && c ≤ 'f' then some (c.toNat - 87)
  else if 'A' ≤ c && c ≤ 'F' then some (c.toNat - 55)
  else none

/-- `urllib.parse.unquote` (ASCII scope): decode `%XY` hex escapes, leaving
malformed escapes untouched. -/
def unquoteChars : List Char → List Char
  | [] => []
  | '%' :: a :: b :: rest =>
    match hexVal a, hexVal b with
    | some ha, some hb => Char.ofNat (16 * ha + hb) :: unquoteChars rest
    | _, _ => '%' :: unquoteChars (a :: b :: rest)
  | c :: rest => c :: unquoteChars rest

/-- `urllib.parse.unquote` on a string. -/
def unquote (s : String) : String := String.mk (unquoteChars s.data)

/-- The path part of the request target, as `urlsplit(path).path`: stop at
the query/fragment delimiter. -/
def urlPath (s : String) : String :=
  String.mk (s.data.takeWhile (fun c => !(c = '?' || c = '#')))

/-- `os.path.basename` of a canonical absolute path. -/
def basename (p : AbsPath) : String := p.getLast?.getD ""

/-- `SimpleHTTPRequestHandler.guess_type`, abstracted to the extensions the
tests exercise, with the handler's `or "application/octet-stream"` default
folded in. -/
def guess_type (p : AbsPath) : String :=
  let name := basename p
  if strEndsWith name ".txt" then "text/plain"
  else if strEndsWith name ".html" then "text/html"
  else "application/octet-stream"

/-- The class attributes of `DownloadOnlyHandler` configured by
`run_server`/`main`. -/
structure Handler where
  serve_single_file : Option String
  allow_dir_list : Bool
  base_dir : Option String
deriving DecidableEq, Repr

/-- Python truthiness of the optional string attributes (`if serve:` treats
`None` and `""` alike). -/
def isTruthy : Option String → Bool
  | none => false
  | some s => s ≠ ""

/-- `DownloadOnlyHandler.translate_path`: in single-file mode the configured
file's absolute path regardless of the request; otherwise unquote, strip one
leading slash, join onto `base_dir` (or the working directory) and
normalise. -/
def translate_path (h : Handler) (cwd : String) (path : String) : AbsPath :=
  if isTruthy h.serve_single_file then
    abspath cwd (h.serve_single_file.getD "")
  else
    let p0 := unquote path
    let p1 := if strStartsWith p0 "/" then String.mk (p0.data.drop 1) else p0
    let base :=
      match h.base_dir with
      | some b => if b = "" then cwd else b
      | none => cwd
    abspath cwd (pyJoin base p1)

/-- HTTP responses at the granularity the handler distinguishes. -/
inductive Response where
  | fileData (status : Nat) (contentType : String) (contentLength : Nat)
      (contentDisposition : Option String) (cacheControl : Option String)
      (body : List Nat)
  | listing (entries : List String)
  | redirect (location : String)
  | err (status : Nat) (msg : String)
deriving DecidableEq, Repr

/-- `DownloadOnlyHandler.list_directory`: 403 unless `allow_dir_list`, else
the standard library listing (a 200 HTML page of the directory's entries;
the stdlib's own `os.listdir` failure path answers 404). -/
def list_directory (h : Handler) (fs : FS) (p : AbsPath) : Response :=
  if !h.allow_dir_list then Response.err 403 "Directory listing disabled"
  else
    match FS.lookup fs p with
    | some (Node.dir entries) => Response.listing entries
    | _ => Response.err 404 "No permission to list directory"

/-- Serve the file at `p` as the base-class `send_head` does: open (404 on
`OSError`), else 200 with guessed type and length. -/
def serveFileAt (fs : FS) (p : AbsPath) : Response :=
  match FS.lookup fs p with
  | some (Node.file openable content) =>
    if openable then
      Response.fileData 200 (guess_type p) content.length none none content
    else Response.err 404 "File not found"
  | _ => Response.err 404 "File not found"

/-- `SimpleHTTPRequestHandler.send_head` (the base-class fallback used in
directory mode): translate the path; directories redirect without a
trailing slash, then try `index.html`/`index.htm`, then `list_directory`;
anything else is served as a file (404 when absent or unopenable). -/
def super_send_head (h : Handler) (fs : FS) (cwd : String) (reqPath : String) :
    Response :=
  let p := translate_path h cwd reqPath
  match FS.lookup fs p with
  | some (Node.dir _) =>
    if !(strEndsWith (urlPath reqPath) "/") then
      Response.redirect (urlPath reqPath ++ "/")
    else if (FS.lookup fs (p ++ ["index.html"])).isSome then
      serveFileAt fs (p ++ ["index.html"])
    else if (FS.lookup fs (p ++ ["index.htm"])).isSome then
      serveFileAt fs (p ++ ["index.htm"])
    else list_directory h fs p
  | _ => serveFileAt fs p

/-- `DownloadOnlyHandler.send_head`: in single-file mode serve the
configured file with attachment headers when it exists, is a regular file
and opens (404 `File not found` otherwise); in directory mode defer to the
base class. -/
def send_head (h : Handler) (fs : FS) (cwd : String) (reqPath : String) :
    Response :=
  if isTruthy h.serve_single_file then
    let p := translate_path h cwd reqPath
    match FS.lookup fs p with
    | some (Node.file openable content) =>
      if openable then
        Response.fileData 200 (guess_type p) content.length
          (some ("attachment; filename=\"" ++ basename p ++ "\""))
          (some "no-store") content
      else Response.err 404 "File not found"
    | _ => Response.err 404 "File not found"
  else super_send_head h fs cwd reqPath

/-! ## export_http_server.py — lan_ips -/

/-- The candidate `(kind, address)` pairs `lan_ips` accumulates, from the
three best-effort discovery steps (each may fail or be empty). -/
def buildNames (hostname : Option String) (lanIp : Option String)
    (addrs : List String) : List (String × String) :=
  (match hostname with
   | some hn => [("mDNS", hn ++ ".local")]
   | none => []) ++
  (match lanIp with
   | some ip => [("LAN", ip)]
   | none => []) ++
  addrs.map (fun a => ("LAN", a))

/-- The dedupe loop of `lan_ips`: keep a pair when its address is nonempty
and not seen yet, preserving order. -/
def dedupe (seen : List String) : List (String × String) → List (String × String)
  | [] => []
  | (k, v) :: rest =>
    if v ≠ "" ∧ v ∉ seen then (k, v) :: dedupe (v :: seen) rest
    else dedupe seen rest

/-- `lan_ips()`: deduplicated discovery results, or the loopback fallback
when nothing survives (`return uniq or [("loopback", "127.0.0.1")]`). -/
def lan_ips (hostname : Option String) (lanIp : Option String)
    (addrs : List String) : List (String × String) :=
  let uniq := dedupe [] (buildNames hostname lanIp addrs)
  if uniq = [] then [("loopback", "127.0.0.1")] else uniq

/-! ## Helper lemmas for the claims -/

theorem digitVal_le_three (c : Char) (v : Nat) (h : digitVal c = some v) :
    v ≤ 3 := by
  by_cases h0 : c = '0'
  · simp [digitVal, h0] at h; omega
  by_cases h1 : c = '1'
  · simp [digitVal, h0, h1] at h; omega
  by_cases h2 : c = '2'
  · simp [digitVal, h0, h1, h2] at h; omega
  by_cases h3 : c = '3'
  · simp [digitVal, h0, h1, h2, h3] at h; omega
  · simp [digitVal, h0, h1, h2, h3] at h

theorem lineRotation_le_three (s : String) (d : Nat)
    (h : lineRotation s = some d) : d ≤ 3 := by
  simp only [lineRotation] at h
  repeat split at h
  all_goals try exact Option.noConfusion h
  all_goals injection h with h2
  all_goals subst h2
  all_goals exact digitVal_le_three _ _ (by assumption)

theorem findSome?_append_of_none {α β : Type} (f : α → Option β)
    (pre rest : List α) (hpre : ∀ a ∈ pre, f a = none) :
    (pre ++ rest).findSome? f = rest.findSome? f := by
  induction pre with
  | nil => rfl
  | cons a t ih =>
    have ha : f a = none := hpre a (by simp)
    have ht : ∀ b ∈ t, f b = none := fun b hb => hpre b (by simp [hb])
    simp only [List.cons_append, List.findSome?_cons, ha]
    exact ih ht

theorem resolve_theme_name_mem (env file : Option String) :
    resolve_theme_name env file ∈ themeKeys := by
  simp only [resolve_theme_name]
  split
  · next hc => exact hc.2
  · split
    · split
      · next hm => exact hm
      · decide
    · decide

theorem set_theme_fst_current (st : ThemeState) (name : String) (pf : Bool) :
    (set_theme st name pf).1.current ∈ themeKeys ∨ (set_theme st name pf).1 = st := by
  simp only [set_theme]
  split
  · next hm =>
    cases pf
    · exact Or.inl hm
    · exact Or.inl hm
  · right; rfl

/-! ## Claim theorems -/

/-- C5: the last-used-app state round-trips: writing a non-blank `app_id`
and reading it back yields exactly `app_id.strip()`, and `get_last_used`
never returns the empty string (it returns `None` instead). -/
theorem c5_last_used_round_trip :
    (∀ (file : Option String) (app_id : String), pyStrip app_id ≠ "" →
      get_last_used (record_last_used file app_id false).1
        = Except.ok (some (pyStrip app_id)))
    ∧ ∀ file, get_last_used file ≠ Except.ok (some "") := by
  constructor
  · intro file app_id ha
    simp [record_last_used, tryWrite, get_last_used, tryRead,
      pyStrip_append_newline, ha]
  · intro file
    cases file with
    | none => simp [get_last_used, tryRead]
    | some s =>
      by_cases hs : pyStrip s = "" <;> simp [get_last_used, tryRead, hs]

/-- Witness for C5 at a concrete input. -/
theorem c5_last_used_round_trip_witness :
    get_last_used (record_last_used none "  vim " false).1
      = Except.ok (some (pyStrip "  vim "))
    ∧ get_last_used (some "x") ≠ Except.ok (some "") :=
  ⟨c5_last_used_round_trip.1 none "  vim " (by decide),
    c5_last_used_round_trip.2 (some "x")⟩

/-- C6: state persistence is best-effort and never raises: for every input
and every filesystem failure, `record_last_used` and `set_theme` return
normally, `get_last_used` returns a value (`None` on failure) rather than
raising, and `set_theme` still updates the in-memory theme for a valid name
even when persisting fails. -/
theorem c6_best_effort_never_raises :
    (∀ (file : Option String) (app_id : String) (writeFails : Bool),
      (record_last_used file app_id writeFails).2 = Except.ok ())
    ∧ (∀ file, ∃ r, get_last_used file = Except.ok r)
    ∧ (∀ (st : ThemeState) (name : String) (persistFails : Bool),
        (set_theme st name persistFails).2 = Except.ok ())
    ∧ ∀ (st : ThemeState) (name : String) (persistFails : Bool),
        pyLower (pyStrip name) ∈ themeKeys →
        (set_theme st name persistFails).1.current = pyLower (pyStrip name) := by
  refine ⟨fun file a wf => ?_, fun file => ?_, fun st n pf => ?_, fun st n pf hm => ?_⟩
  · cases wf <;> simp [record_last_used, tryWrite]
  · cases file with
    | none => exact ⟨none, rfl⟩
    | some s =>
      by_cases hs : pyStrip s = ""
      · exact ⟨none, by simp [get_last_used, tryRead, hs]⟩
      · exact ⟨some (pyStrip s), by simp [get_last_used, tryRead, hs]⟩
  · simp only [set_theme]
    split
    · cases pf <;> simp [tryWrite]
    · rfl
  · simp only [set_theme]
    rw [if_pos hm]
    cases pf <;> simp [tryWrite]

/-- Witness for C6 at concrete inputs, including a failing persist. -/
theorem c6_best_effort_never_raises_witness :
    (record_last_used none "vim" true).2 = Except.ok ()
    ∧ (∃ r, get_last_used none = Except.ok r)
    ∧ (set_theme ⟨"night", none⟩ " Day " true).2 = Except.ok ()
    ∧ (set_theme ⟨"night", none⟩ " Day " true).1.current = pyLower (pyStrip " Day ") :=
  ⟨c6_best_effort_never_raises.1 none "vim" true,
    c6_best_effort_never_raises.2.1 none,
    c6_best_effort_never_raises.2.2.1 ⟨"night", none⟩ " Day " true,
    c6_best_effort_never_raises.2.2.2 ⟨"night", none⟩ " Day " true (by decide)⟩

/-- C7: `get_current_rotation()` returns a digit in `{0,1,2,3}`, namely the
digit of the first config line matching
`^\s*display_hdmi_rotate\s*=\s*([0-3])\s*(#.*)?$`; it returns `None` when
the config file does not exist or no line matches; and `set_rotation`'s
entry assertion admits exactly `{0,1,2,3}`. -/
theorem c7_rotation_config :
    (∀ (config : Option (List String)) (r : Nat),
      get_current_rotation config = some r → r ≤ 3)
    ∧ get_current_rotation none = none
    ∧ (∀ lines, (∀ l ∈ lines, lineRotation l = none) →
        get_current_rotation (some lines) = none)
    ∧ (∀ (pre post : List String) (l : String) (d : Nat),
        (∀ l2 ∈ pre, lineRotation l2 = none) → lineRotation l = some d →
        get_current_rotation (some (pre ++ l :: post)) = some d)
    ∧ ∀ v : Int, set_rotation_entry v = Except.ok () ↔ (v = 0 ∨ v = 1 ∨ v = 2 ∨ v = 3) := by
  refine ⟨?_, rfl, ?_, ?_, ?_⟩
  · intro config r h
    cases config with
    | none => exact absurd h (by simp [get_current_rotation])
    | some lines =>
      obtain ⟨l, _, hl⟩ := List.exists_of_findSome?_eq_some h
      exact lineRotation_le_three l r hl
  · intro lines hall
    simp [get_current_rotation, List.findSome?_eq_none_iff]
    exact hall
  · intro pre post l d hpre hl
    show (pre ++ l :: post).findSome? lineRotation = some d
    rw [findSome?_append_of_none lineRotation pre (l :: post) hpre,
      List.findSome?_cons, hl]
  · intro v
    unfold set_rotation_entry
    split
    · next hv => simpa using hv
    · next hv => simpa using hv

/-- Witness for C7 at concrete inputs. -/
theorem c7_rotation_config_witness :
    get_current_rotation (some ["# cfg", " display_hdmi_rotate = 2 # note", "display_hdmi_rotate=1"])
      = some 2
    ∧ (set_rotation_entry 4 = Except.ok () ↔ ((4 : Int) = 0 ∨ (4 : Int) = 1 ∨ (4 : Int) = 2 ∨ (4 : Int) = 3)) :=
  ⟨c7_rotation_config.2.2.2.1 ["# cfg"] ["display_hdmi_rotate=1"]
      " display_hdmi_rotate = 2 # note" 2 (by decide) (by decide),
    c7_rotation_config.2.2.2.2 4⟩

/-- C10: the current theme name is always a valid preset key in every
reachable state, and `set_theme` with a name whose stripped lowercase form
is not a preset key leaves both the in-memory theme and the persisted file
unchanged. -/
theorem c10_theme_always_valid_preset :
    (∀ (env : Option String) (st : ThemeState),
      ThemeReachable env st → get_theme st ∈ themeKeys)
    ∧ ∀ (st : ThemeState) (name : String) (persistFails : Bool),
        pyLower (pyStrip name) ∉ themeKeys →
        set_theme st name persistFails = (st, Except.ok ()) := by
  constructor
  · intro env st hr
    induction hr with
    | init file => exact resolve_theme_name_mem env file
    | step st name pf _ ih =>
      rcases set_theme_fst_current st name pf with hmem | heq
      · exact hmem
      · rw [get_theme, heq]; exact ih
  · intro st name pf hno
    unfold set_theme
    rw [if_neg hno]

/-- Witness for C10 at concrete inputs. -/
theorem c10_theme_always_valid_preset_witness :
    get_theme ⟨resolve_theme_name none (some "bogus\n"), some "bogus\n"⟩ ∈ themeKeys
    ∧ set_theme ⟨"day", some "day\n"⟩ "sepia" false = (⟨"day", some "day\n"⟩, Except.ok ()) :=
  ⟨c10_theme_always_valid_preset.1 none _ (ThemeReachable.init (some "bogus\n")),
    c10_theme_always_valid_preset.2 ⟨"day", some "day\n"⟩ "sepia" false (by decide)⟩

/-- C4: in the agent's `RequestConfirmation` (non-dry-run, parseable MAC),
the three disabling commands are issued iff `bluetoothctl connect <mac>`
exited 0 and `post_connect_knobs` is enabled; on a nonzero connect exit none
of the three is issued. -/
theorem c4_knobs_iff_connect_ok (knobs : Bool) (device mac : String)
    (exec : List String → Int) (hmac : extract_mac device = some mac) :
    ((btcmd ["discoverable", "off"] ∈ RequestConfirmation false knobs device exec
      ∧ btcmd ["pairable", "off"] ∈ RequestConfirmation false knobs device exec
      ∧ btcmd ["scan", "off"] ∈ RequestConfirmation false knobs device exec)
      ↔ (exec (btcmd ["connect", mac]) = 0 ∧ knobs = true))
    ∧ (exec (btcmd ["connect", mac]) ≠ 0 →
        btcmd ["discoverable", "off"] ∉ RequestConfirmation false knobs device exec
        ∧ btcmd ["pairable", "off"] ∉ RequestConfirmation false knobs device exec
        ∧ btcmd ["scan", "off"] ∉ RequestConfirmation false knobs device exec) := by
  have hshape : RequestConfirmation false knobs device exec =
      btcmd ["trust", mac] :: btcmd ["connect", mac] ::
        (if exec (btcmd ["connect", mac]) = 0 && knobs then
          [btcmd ["discoverable", "off"], btcmd ["pairable", "off"],
            btcmd ["scan", "off"]]
        else []) := by
    simp [RequestConfirmation, hmac]
  rw [hshape]
  by_cases hrc : exec (btcmd ["connect", mac]) = 0
  · cases knobs <;> simp [hrc, btcmd]
  · cases knobs <;> simp [hrc, btcmd]

/-- Witness for C4 at a concrete device path and exit-code oracle. -/
theorem c4_knobs_iff_connect_ok_witness :
    ((btcmd ["discoverable", "off"]
        ∈ RequestConfirmation false true "/org/bluez/hci0/dev_AA_BB_CC_DD_EE_FF" (fun _ => 0)
      ∧ btcmd ["pairable", "off"]
        ∈ RequestConfirmation false true "/org/bluez/hci0/dev_AA_BB_CC_DD_EE_FF" (fun _ => 0)
      ∧ btcmd ["scan", "off"]
        ∈ RequestConfirmation false true "/org/bluez/hci0/dev_AA_BB_CC_DD_EE_FF" (fun _ => 0))
      ↔ ((fun _ => (0 : Int)) (btcmd ["connect", "AA:BB:CC:DD:EE:FF"]) = 0 ∧ true = true)) :=
  (c4_knobs_iff_connect_ok true "/org/bluez/hci0/dev_AA_BB_CC_DD_EE_FF"
    "AA:BB:CC:DD:EE:FF" (fun _ => 0) (by decide)).1

/-- Every pair produced by the dedupe loop has a nonempty address that was
not seen before, and occurs in the input strictly after only pairs whose
address was already seen or differs from its own. -/
theorem dedupe_mem_spec (l : List (String × String)) :
    ∀ (seen : List String) (p : String × String), p ∈ dedupe seen l →
      p.2 ∉ seen ∧ p.2 ≠ ""
      ∧ ∃ pre post, l = pre ++ p :: post
          ∧ ∀ q ∈ pre, q.2 ∈ seen ∨ q.2 ≠ p.2 := by
  induction l with
  | nil => intro seen p hp; exact absurd hp (by simp [dedupe])
  | cons a rest ih =>
    intro seen p hp
    obtain ⟨k, v⟩ := a
    by_cases hc : v ≠ "" ∧ v ∉ seen
    · rw [dedupe, if_pos hc] at hp
      rcases List.mem_cons.mp hp with heq | htl
      · subst heq
        exact ⟨hc.2, hc.1, [], rest, rfl, by simp⟩
      · obtain ⟨hseen, hne, pre, post, hsplit, hpre⟩ := ih (v :: seen) p htl
        have hpv : p.2 ≠ v := fun hv => hseen (hv ▸ List.mem_cons_self v seen)
        refine ⟨fun hs => hseen (List.mem_cons_of_mem v hs), hne,
          (k, v) :: pre, post, by rw [hsplit, List.cons_append], ?_⟩
        intro q hq
        rcases List.mem_cons.mp hq with hq1 | hq2
        · subst hq1
          exact Or.inr (fun hqe => hpv hqe.symm)
        · rcases hpre q hq2 with hs | hd
          · rcases List.mem_cons.mp hs with hv | hs2
            · exact Or.inr (fun hqe => hpv (hqe.symm.trans hv))
            · exact Or.inl hs2
          · exact Or.inr hd
    · rw [dedupe, if_neg hc] at hp
      obtain ⟨hseen, hne, pre, post, hsplit, hpre⟩ := ih seen p hp
      refine ⟨hseen, hne, (k, v) :: pre, post, by rw [hsplit, List.cons_append], ?_⟩
      intro q hq
      rcases List.mem_cons.mp hq with hq1 | hq2
      · subst hq1
        rcases not_and_or.mp hc with hv | hv
        · exact Or.inr (fun hqe => hne (hqe ▸ not_not.mp hv))
        · exact Or.inl (not_not.mp hv)
      · exact hpre q hq2

/-- The dedupe loop yields a sublist of its input. -/
theorem dedupe_sublist (l : List (String × String)) :
    ∀ seen, List.Sublist (dedupe seen l) l := by
  induction l with
  | nil => intro seen; simp [dedupe]
  | cons a rest ih =>
    intro seen
    obtain ⟨k, v⟩ := a
    by_cases hc : v ≠ "" ∧ v ∉ seen
    · rw [dedupe, if_pos hc]
      exact List.Sublist.cons₂ (k, v) (ih (v :: seen))
    · rw [dedupe, if_neg hc]
      exact List.Sublist.cons (k, v) (ih seen)

/-- The addresses surviving the dedupe loop are pairwise distinct. -/
theorem dedupe_nodup (l : List (String × String)) :
    ∀ seen, ((dedupe seen l).map Prod.snd).Nodup := by
  induction l with
  | nil => intro seen; simp [dedupe]
  | cons a rest ih =>
    intro seen
    obtain ⟨k, v⟩ := a
    by_cases hc : v ≠ "" ∧ v ∉ seen
    · rw [dedupe, if_pos hc]
      refine List.nodup_cons.mpr ⟨?_, ih (v :: seen)⟩
      intro hv
      obtain ⟨p, hp, hpv⟩ := List.mem_map.mp hv
      exact (dedupe_mem_spec rest (v :: seen) p hp).1 (hpv ▸ List.mem_cons_self v seen)
    · rw [dedupe, if_neg hc]
      exact ih seen

/-- C9: `lan_ips()` returns a nonempty list with no duplicate and no empty
address, preserving the first-occurrence order of the discovered pairs, and
falls back to `[("loopback", "127.0.0.1")]` when nothing survives. -/
theorem c9_lan_ips_dedup_order (hostname lanIp : Option String)
    (addrs : List String) :
    lan_ips hostname lanIp addrs ≠ []
    ∧ (∀ p ∈ lan_ips hostname lanIp addrs, p.2 ≠ "")
    ∧ ((lan_ips hostname lanIp addrs).map Prod.snd).Nodup
    ∧ (dedupe [] (buildNames hostname lanIp addrs) = [] →
        lan_ips hostname lanIp addrs = [("loopback", "127.0.0.1")])
    ∧ (dedupe [] (buildNames hostname lanIp addrs) ≠ [] →
        List.Sublist (lan_ips hostname lanIp addrs) (buildNames hostname lanIp addrs)
        ∧ ∀ p ∈ lan_ips hostname lanIp addrs,
            ∃ pre post, buildNames hostname lanIp addrs = pre ++ p :: post
              ∧ ∀ q ∈ pre, q.2 ≠ p.2) := by
  by_cases hu : dedupe [] (buildNames hostname lanIp addrs) = []
  · refine ⟨?_, ?_, ?_, fun _ => ?_, fun hne => absurd hu hne⟩ <;>
      simp [lan_ips, hu]
  · have hr : lan_ips hostname lanIp addrs
        = dedupe [] (buildNames hostname lanIp addrs) := by
      simp [lan_ips, hu]
    refine ⟨by rw [hr]; exact hu, ?_, ?_, fun h => absurd h hu, fun _ => ⟨?_, ?_⟩⟩
    · intro p hp
      rw [hr] at hp
      exact (dedupe_mem_spec _ [] p hp).2.1
    · rw [hr]
      exact dedupe_nodup _ []
    · rw [hr]
      exact dedupe_sublist _ []
    · intro p hp
      rw [hr] at hp
      obtain ⟨_, _, pre, post, hsplit, hpre⟩ := dedupe_mem_spec _ [] p hp
      refine ⟨pre, post, hsplit, fun q hq => ?_⟩
      rcases hpre q hq with hs | hd
      · exact absurd hs (List.not_mem_nil q.2)
      · exact hd

/-- Witness for C9 at concrete discovery results (the shape of the
repository's own `test_lan_ips_dedup_and_order`). -/
theorem c9_lan_ips_dedup_order_witness :
    lan_ips (some "raspberrypi") (some "192.168.0.123") ["192.168.0.123", "10.0.0.5"] ≠ []
    ∧ (dedupe [] (buildNames none none [""]) = [] →
        lan_ips none none [""] = [("loopback", "127.0.0.1")]) :=
  ⟨(c9_lan_ips_dedup_order (some "raspberrypi") (some "192.168.0.123")
      ["192.168.0.123", "10.0.0.5"]).1,
    (c9_lan_ips_dedup_order none none [""]).2.2.2.1⟩

/-- C1 (violated by the code): in directory mode `translate_path` resolves a
`..`-climbing request to a location outside `base_dir` without any
containment check, and `send_head` then serves that outside file's contents
with status 200 instead of a failure response.  Evaluated here at the
failing input: `base_dir = /srv/export`, request `/../../etc/passwd`, with
`/etc/passwd` an existing readable regular file. -/
theorem c1_traversal_serves_outside_file :
    translate_path ⟨none, false, some "/srv/export"⟩ "/srv/export" "/../../etc/passwd"
      = ["etc", "passwd"]
    ∧ ¬ (["srv", "export"] : AbsPath) <+: ["etc", "passwd"]
    ∧ send_head ⟨none, false, some "/srv/export"⟩
        [(["srv", "export"], Node.dir []), (["etc", "passwd"], Node.file true [115, 51, 51])]
        "/srv/export" "/../../etc/passwd"
      = Response.fileData 200 "application/octet-stream" 3 none none [115, 51, 51] :=
  ⟨by decide, by decide, by decide⟩

/-- C2 counterexample: with `serve_single_file` set to an existing regular
file that cannot be opened, `send_head` answers 404 rather than the claimed
unconditional 200. -/
theorem c2_unopenable_regular_file_404 :
    FS.isfile [(["data", "parcel.txt"], Node.file false [104, 105])]
      (translate_path ⟨some "/data/parcel.txt", false, some "/data"⟩ "/data" "/") = true
    ∧ send_head ⟨some "/data/parcel.txt", false, some "/data"⟩
        [(["data", "parcel.txt"], Node.file false [104, 105])] "/data" "/"
      = Response.err 404 "File not found" :=
  ⟨by decide, by decide⟩

/-- C2 (amended): in single-file mode, when the configured file exists, is a
regular file and can be opened, every request — whatever its path — receives
status 200 with the file's bytes, `Content-Disposition:
attachment; filename="<basename>"`, `Content-Length` equal to the file size
and `Cache-Control: no-store`; the right-hand side does not mention the
request path. -/
theorem c2_single_file_attachment (h : Handler) (fs : FS) (cwd serve : String)
    (content : List Nat) (hs : h.serve_single_file = some serve)
    (hne : serve ≠ "")
    (hf : FS.lookup fs (abspath cwd serve) = some (Node.file true content))
    (reqPath : String) :
    send_head h fs cwd reqPath =
      Response.fileData 200 (guess_type (abspath cwd serve)) content.length
        (some ("attachment; filename=\"" ++ basename (abspath cwd serve) ++ "\""))
        (some "no-store") content := by
  have htv : isTruthy (some serve) = true := by simp [isTruthy, hne]
  have ht : isTruthy h.serve_single_file = true := by rw [hs]; exact htv
  have htp : translate_path h cwd reqPath = abspath cwd serve := by
    simp [translate_path, hs, htv]
  simp only [send_head, ht, if_true, htp, hf]

/-- Witness for C2's amended theorem at the test suite's own scenario. -/
theorem c2_single_file_attachment_witness :
    send_head ⟨some "/data/parcel.txt", false, some "/data"⟩
      [(["data", "parcel.txt"], Node.file true [104, 105])] "/data" "/anything/ignored"
    = Response.fileData 200 "text/plain" 2
        (some "attachment; filename=\"parcel.txt\"") (some "no-store") [104, 105] :=
  (c2_single_file_attachment ⟨some "/data/parcel.txt", false, some "/data"⟩
    [(["data", "parcel.txt"], Node.file true [104, 105])] "/data" "/data/parcel.txt"
    [104, 105] rfl (by decide) (by decide) "/anything/ignored").trans (by decide)

/-- C3: a directory-mode request that reaches `list_directory` (a directory
with a trailing-slash URL and no index file) is answered 403
`Directory listing disabled` when `allow_dir_list` is off, and with the
standard 200 listing when it is on. -/
theorem c3_dir_listing_gated (h : Handler) (fs : FS) (cwd reqPath : String)
    (entries : List String)
    (hserve : isTruthy h.serve_single_file = false)
    (hdir : FS.lookup fs (translate_path h cwd reqPath) = some (Node.dir entries))
    (hslash : strEndsWith (urlPath reqPath) "/" = true)
    (hidx1 : FS.lookup fs (translate_path h cwd reqPath ++ ["index.html"]) = none)
    (hidx2 : FS.lookup fs (translate_path h cwd reqPath ++ ["index.htm"]) = none) :
    send_head h fs cwd reqPath =
      if h.allow_dir_list then Response.listing entries
      else Response.err 403 "Directory listing disabled" := by
  by_cases hal : h.allow_dir_list
  · simp [send_head, hserve, super_send_head, hdir, hslash, hidx1, hidx2,
      list_directory, hal]
  · simp [send_head, hserve, super_send_head, hdir, hslash, hidx1, hidx2,
      list_directory, hal]

/-- Witness for C3 at the test suite's `/sub/` scenario with listing
disabled. -/
theorem c3_dir_listing_gated_witness :
    send_head ⟨none, false, some "/srv"⟩
      [(["srv"], Node.dir ["sub"]), (["srv", "sub"], Node.dir [])] "/srv" "/sub/"
    = Response.err 403 "Directory listing disabled" :=
  (c3_dir_listing_gated ⟨none, false, some "/srv"⟩
    [(["srv"], Node.dir ["sub"]), (["srv", "sub"], Node.dir [])] "/srv" "/sub/"
    [] rfl (by decide) (by decide) (by decide) (by decide)).trans (by decide)

/-- C8: in single-file mode, when the configured path does not resolve to an
existing, regular, openable file, `send_head` answers 404 `File not found`
for every request path, returning no file body. -/
theorem c8_single_file_missing_404 (h : Handler) (fs : FS)
    (cwd serve reqPath : String) (hs : h.serve_single_file = some serve)
    (hne : serve ≠ "")
    (hbad : ∀ content : List Nat,
      FS.lookup fs (abspath cwd serve) ≠ some (Node.file true content)) :
    send_head h fs cwd reqPath = Response.err 404 "File not found" := by
  have htv : isTruthy (some serve) = true := by simp [isTruthy, hne]
  have ht : isTruthy h.serve_single_file = true := by rw [hs]; exact htv
  have htp : translate_path h cwd reqPath = abspath cwd serve := by
    simp [translate_path, hs, htv]
  simp only [send_head, ht, if_true, htp]
  rcases hl : FS.lookup fs (abspath cwd serve) with _ | node
  · rfl
  · cases node with
    | file openable content =>
      cases openable
      · rfl
      · exact absurd hl (hbad content)
    | dir entries => rfl

/-- Witness for C8: the configured file is absent from the filesystem. -/
theorem c8_single_file_missing_404_witness :
    send_head ⟨some "/data/parcel.txt", false, some "/data"⟩ [] "/data" "/x"
    = Response.err 404 "File not found" :=
  c8_single_file_missing_404 ⟨some "/data/parcel.txt", false, some "/data"⟩ []
    "/data" "/data/parcel.txt" "/x" rfl (by decide)
    (fun content h => Option.noConfusion h)

end Silo
